import Mathlib

/-!
Verification of the GFMAP asynchronous job-lifecycle manager
(`src/openeo_gfmap/manager/job_manager.py`) against its specification.

The Python module is shallowly embedded: the job-tracking dataframe becomes a
list of `JobRow`s, backend queries (`describe_job`, `logs`) become injected
`Except`-valued inputs, and the in-place dataframe mutations of
`_update_statuses` become a pure function returning the updated rows together
with the exception, if any, that propagated out of the polling loop.
-/

set_option autoImplicit false

namespace GFMap

/-- The remote-job metadata consumed from `describe_job()` by
`GFMAPJobManager._update_statuses`: the backend-reported status string, the
optional `costs` entry (`costs.isSome` models `"costs" in job_metadata`) and
the optional `usage.max_executor_memory.value`. -/
structure JobMeta where
  status : String
  costs : Option Int
  memory : Option Int
  deriving DecidableEq, Repr

/-- One row of the job-tracking dataframe.  `id` is the remote job id used to
query the backend, `status` the lifecycle status string.  `costs` and `memory`
are the bookkeeping columns written by `_update_statuses`; `other` stands for
all the remaining columns (`start_time`, `cpu`, `duration`, `backend_name`,
`description`, ...) which the polling code never writes. -/
structure JobRow where
  id : String
  status : String
  costs : Option Int
  memory : Option Int
  other : Int
  deriving DecidableEq, Repr

/-- Embedding of the module-level `done_callback(future, df, idx)`.  The
future's outcome is `exception : Option String` (`none` when the post-job
action succeeded); the row is returned with its new status, and the
`ValueError` raised for an invalid status becomes an `Except.error` carrying
the formatted message.  The `_log.exception` call on the failure path is pure
logging and is not modelled. -/
def done_callback (exception : Option String) (row : JobRow) : Except String JobRow :=
  match exception with
  | none =>
    if row.status == "postprocessing" then .ok { row with status := "finished" }
    else if row.status == "postprocessing-error" then .ok { row with status := "error" }
    else if row.status == "running" then .ok { row with status := "running" }
    else .error ("Invalid status " ++ row.status ++ " for job " ++ row.id ++ " for done_callback!")
  | some _ => .ok { row with status := "error" }

/-- Loop body of the `retry_on_exception` decorator.  The wrapped function is
modelled as `f : Nat → Except ε α`, giving the outcome of each successive
invocation; `n` is the remaining iteration budget of `for _ in
range(max_retries)`, `made` the number of invocations performed so far and
`latest` the `latest_exception` variable.  The result pairs the value
returned, or the exception finally re-raised (`none` models re-raising the
initial `latest_exception = None`), with the total number of invocations.
The `time.sleep(delay_s)` between attempts is pure waiting and is not
modelled. -/
def retryGo {ε α : Type} (f : Nat → Except ε α) :
    Nat → Nat → Option ε → Except (Option ε) α × Nat
  | 0, made, latest => (.error latest, made)
  | n + 1, made, _ =>
    match f made with
    | .ok a => (.ok a, made + 1)
    | .error e => retryGo f n (made + 1) (some e)

/-- Embedding of `retry_on_exception(max_retries, delay_s)` applied to a
function: runs up to `max_retries` invocations, returning the first success
or re-raising the exception of the last attempt. -/
def retry_on_exception {ε α : Type} (max_retries : Nat) (f : Nat → Except ε α) :
    Except (Option ε) α × Nat :=
  retryGo f max_retries 0 none

end GFMap

namespace GFMap

/-- Claim C6: when a submitted post-job future resolves without an exception,
`done_callback` maps a row status of `postprocessing` to `finished` and
`postprocessing-error` to `error`; when the future resolves with an
exception, `done_callback` sets the row's status to `error` (the exception is
additionally logged, which the embedding does not model). -/
theorem done_callback_mapping (r : JobRow) (e : String) :
    done_callback none { r with status := "postprocessing" } =
      .ok { r with status := "finished" } ∧
    done_callback none { r with status := "postprocessing-error" } =
      .ok { r with status := "error" } ∧
    done_callback (some e) r = .ok { r with status := "error" } :=
  ⟨rfl, rfl, rfl⟩

/-- Claim C10: if a post-job future resolves without an exception while the
row's status is anything other than `postprocessing`, `postprocessing-error`
or `running`, `done_callback` raises a `ValueError` instead of writing any
status; a status of `running` is rewritten unchanged as `running`. -/
theorem done_callback_invalid_status (r : JobRow)
    (h1 : r.status ≠ "postprocessing") (h2 : r.status ≠ "postprocessing-error")
    (h3 : r.status ≠ "running") :
    done_callback none r =
      .error ("Invalid status " ++ r.status ++ " for job " ++ r.id ++
        " for done_callback!") ∧
    ∀ r2 : JobRow, r2.status = "running" → done_callback none r2 = .ok r2 := by
  constructor
  · simp [done_callback, h1, h2, h3]
  · intro r2 h
    cases r2
    simp_all [done_callback]

/-- A concrete row already in the terminal status `finished`. -/
def rowFinishedExample : JobRow :=
  { id := "j-1", status := "finished", costs := none, memory := none, other := 0 }

/-- Witness for claim C10 at a concrete row in status `finished`. -/
theorem done_callback_invalid_status_witness :
    done_callback none rowFinishedExample =
      .error ("Invalid status " ++ "finished" ++ " for job " ++ "j-1" ++
        " for done_callback!") ∧
    ∀ r2 : JobRow, r2.status = "running" → done_callback none r2 = .ok r2 :=
  done_callback_invalid_status rowFinishedExample
    (by decide) (by decide) (by decide)

theorem retryGo_ok {ε α : Type} (f : Nat → Except ε α) (k : Nat) :
    ∀ (n made : Nat) (latest : Option ε) (a : α),
      k < n → f (made + k) = .ok a →
      (∀ j, j < k → ∃ e, f (made + j) = .error e) →
      retryGo f n made latest = (.ok a, made + k + 1) := by
  induction k with
  | zero =>
    intro n made latest a hk hok _
    match n, hk with
    | n + 1, _ =>
      rw [Nat.add_zero] at hok
      simp only [retryGo, hok]
  | succ k ih =>
    intro n made latest a hk hok hfail
    match n, hk with
    | n + 1, hk =>
      obtain ⟨e, he⟩ := hfail 0 (Nat.succ_pos k)
      rw [Nat.add_zero] at he
      simp only [retryGo, he]
      have heq : made + 1 + k = made + (k + 1) := by omega
      have hrec := ih n (made + 1) (some e) a (by omega)
        (by rw [heq]; exact hok)
        (fun j hj => by
          obtain ⟨e2, he2⟩ := hfail (j + 1) (by omega)
          refine ⟨e2, ?_⟩
          have hj2 : made + 1 + j = made + (j + 1) := by omega
          rw [hj2]; exact he2)
      rw [hrec, heq]

theorem retryGo_fail {ε α : Type} (f : Nat → Except ε α) (err : Nat → ε) :
    ∀ (n made : Nat) (latest : Option ε),
      0 < n → (∀ j, j < n → f (made + j) = .error (err (made + j))) →
      retryGo f n made latest = (.error (some (err (made + n - 1))), made + n) := by
  intro n
  induction n with
  | zero => intro made latest h _; exact absurd h (Nat.lt_irrefl 0)
  | succ n ih =>
    intro made latest _ hfail
    have h0 : f made = .error (err made) := by
      have := hfail 0 (Nat.succ_pos n)
      rwa [Nat.add_zero] at this
    simp only [retryGo, h0]
    cases n with
    | zero => simp [retryGo]
    | succ m =>
      have hrec := ih (made + 1) (some (err made)) (Nat.succ_pos m)
        (fun j hj => by
          have := hfail (j + 1) (by omega)
          have hj2 : made + 1 + j = made + (j + 1) := by omega
          rw [hj2]; exact this)
      rw [hrec]
      have e1 : made + 1 + (m + 1) - 1 = made + (m + 1 + 1) - 1 := by omega
      have e2 : made + 1 + (m + 1) = made + (m + 1 + 1) := by omega
      rw [e1, e2]

theorem retryGo_count {ε α : Type} (f : Nat → Except ε α) :
    ∀ (n made : Nat) (latest : Option ε), (retryGo f n made latest).2 ≤ made + n := by
  intro n
  induction n with
  | zero => intro made latest; simp [retryGo]
  | succ n ih =>
    intro made latest
    simp only [retryGo]
    cases hf : f made with
    | ok a => simp
    | error e =>
      show (retryGo f n (made + 1) (some e)).2 ≤ made + (n + 1)
      have := ih (made + 1) (some e)
      omega

/-- Claim C8: a function wrapped by `retry_on_exception(max_retries, delay_s)`
is invoked at most `max_retries` times; if invocation `k` succeeds, its result
is returned after exactly `k + 1` invocations and no further invocations
occur; and if every invocation raises, the exception from the last attempt is
re-raised after the retry budget is exhausted. -/
theorem retry_on_exception_bounded {ε α : Type} (f : Nat → Except ε α)
    (max_retries k : Nat) (a : α)
    (hk : k < max_retries) (hok : f k = .ok a)
    (hfail : ∀ j, j < k → ∃ e, f j = .error e) :
    retry_on_exception max_retries f = (.ok a, k + 1) ∧ k + 1 ≤ max_retries ∧
      (∀ (g : Nat → Except ε α) (err : Nat → ε),
        0 < max_retries → (∀ j, j < max_retries → g j = .error (err j)) →
        retry_on_exception max_retries g =
          (.error (some (err (max_retries - 1))), max_retries)) ∧
      ∀ h : Nat → Except ε α, (retry_on_exception max_retries h).2 ≤ max_retries := by
  refine ⟨?_, by omega, ?_, ?_⟩
  · have := retryGo_ok f k max_retries 0 none a hk (by simpa using hok)
      (fun j hj => by simpa using hfail j hj)
    simpa [retry_on_exception] using this
  · intro g err hpos hf
    have := retryGo_fail g err max_retries 0 none hpos (fun j hj => by simpa using hf j hj)
    simpa [retry_on_exception] using this
  · intro h
    have := retryGo_count h max_retries 0 none
    simpa [retry_on_exception] using this

/-- Outcome sequence used by the witness of claim C8: the first invocation
raises, the second succeeds. -/
def retryWitnessF : Nat → Except String Nat :=
  fun n => if n == 1 then .ok 42 else .error "boom"

/-- Witness for claim C8: with a retry budget of 3, a function failing once
and then succeeding is invoked exactly twice and its result returned. -/
theorem retry_on_exception_bounded_witness :
    retry_on_exception 3 retryWitnessF = (.ok 42, 1 + 1) ∧ 1 + 1 ≤ 3 ∧
      (∀ (g : Nat → Except String Nat) (err : Nat → String),
        0 < 3 → (∀ j, j < 3 → g j = .error (err j)) →
        retry_on_exception 3 g = (.error (some (err (3 - 1))), 3)) ∧
      ∀ h : Nat → Except String Nat, (retry_on_exception 3 h).2 ≤ 3 :=
  retry_on_exception_bounded retryWitnessF 3 1 42 (by decide) rfl
    (fun j hj => ⟨"boom", by
      have hj0 : j = 0 := by omega
      subst hj0; rfl⟩)

end GFMap

namespace GFMap

/-- A catalog item as handled by `on_job_done`: pystac items are keyed by
their `id` (derived from the remote job id and asset name); the pair
`(lo, hi)` abstracts the item's spatio-temporal extent as one interval. -/
structure StacItem where
  id : String
  lo : Int
  hi : Int
  deriving DecidableEq, Repr

/-- The critical section of `on_job_done` (the `with lock:` block): the job
items whose id already occurs in the collection (`existing_ids`, inlined
here) are filtered out, and the remaining ones appended by
`pystac.Collection.add_items`. -/
def merge_job_items (collection : List StacItem) (job_items : List StacItem) :
    List StacItem :=
  collection ++
    job_items.filter (fun item => !(collection.map StacItem.id).contains item.id)

theorem mem_ids_merge_left {c b : List StacItem} {x : String}
    (h : x ∈ c.map StacItem.id) : x ∈ (merge_job_items c b).map StacItem.id := by
  simp only [merge_job_items, List.map_append, List.mem_append]
  exact Or.inl h

theorem mem_ids_merge_batch {c b : List StacItem} {i : StacItem}
    (h : i ∈ b) : i.id ∈ (merge_job_items c b).map StacItem.id := by
  simp only [merge_job_items, List.map_append, List.mem_append]
  by_cases hc : i.id ∈ c.map StacItem.id
  · exact Or.inl hc
  · refine Or.inr (List.mem_map_of_mem _ ?_)
    rw [List.mem_filter]
    exact ⟨h, by simp [List.contains, hc]⟩

theorem nodup_ids_merge {c b : List StacItem}
    (hc : (c.map StacItem.id).Nodup) (hb : (b.map StacItem.id).Nodup) :
    ((merge_job_items c b).map StacItem.id).Nodup := by
  simp only [merge_job_items, List.map_append, List.nodup_append]
  refine ⟨hc, ?_, ?_⟩
  · exact hb.sublist ((List.filter_sublist b).map StacItem.id)
  · intro x hx hx2
    obtain ⟨i, hi, rfl⟩ := List.mem_map.mp hx2
    rw [List.mem_filter] at hi
    have h2 := hi.2
    simp only [List.contains, Bool.not_eq_true', List.elem_eq_mem,
      decide_eq_false_iff_not] at h2
    exact h2 hx

theorem merge_job_items_idem (c b : List StacItem) :
    merge_job_items (merge_job_items c b) b = merge_job_items c b := by
  have hfil : b.filter
      (fun item => !((merge_job_items c b).map StacItem.id).contains item.id) = [] := by
    rw [List.filter_eq_nil_iff]
    intro i hi
    have hmem := mem_ids_merge_batch (c := c) hi
    simp [List.contains, hmem]
  conv_lhs => rw [merge_job_items, hfil, List.append_nil]

theorem nodup_ids_foldl (batches : List (List StacItem)) :
    ∀ c : List StacItem, (c.map StacItem.id).Nodup →
      (∀ b ∈ batches, (b.map StacItem.id).Nodup) →
      ((batches.foldl merge_job_items c).map StacItem.id).Nodup := by
  induction batches with
  | nil => intro c hc _; simpa using hc
  | cons b bs ih =>
    intro c hc hb
    simp only [List.foldl_cons]
    exact ih _ (nodup_ids_merge hc (hb b (List.mem_cons_self b bs)))
      (fun x hx => hb x (List.mem_cons_of_mem b hx))

theorem mem_ids_foldl (batches : List (List StacItem)) :
    ∀ (c : List StacItem) (x : String), x ∈ c.map StacItem.id →
      x ∈ (batches.foldl merge_job_items c).map StacItem.id := by
  induction batches with
  | nil => intro c x hx; simpa using hx
  | cons b bs ih =>
    intro c x hx
    simp only [List.foldl_cons]
    exact ih _ x (mem_ids_merge_left hx)

theorem mem_ids_foldl_batch (batches : List (List StacItem)) :
    ∀ (c : List StacItem) (b : List StacItem), b ∈ batches → ∀ i ∈ b,
      i.id ∈ (batches.foldl merge_job_items c).map StacItem.id := by
  induction batches with
  | nil => intro c b hb; cases hb
  | cons b2 bs ih =>
    intro c b hb i hi
    simp only [List.foldl_cons]
    rcases List.mem_cons.mp hb with rfl | hmem
    · exact mem_ids_foldl bs _ _ (mem_ids_merge_batch hi)
    · exact ih _ b hmem i hi

/-- Claim C1: for every sequence of `on_job_done` merges (including replaying
the same batch after a crash-resume), the resulting catalog contains exactly
one item per unique item id: the final id list has no duplicates, every
merged item's id is present, and merging the same batch twice leaves the
catalog exactly as after the first merge. -/
theorem catalog_merge_idempotent (c0 : List StacItem) (batches : List (List StacItem))
    (h0 : (c0.map StacItem.id).Nodup)
    (hb : ∀ b ∈ batches, (b.map StacItem.id).Nodup) :
    ((batches.foldl merge_job_items c0).map StacItem.id).Nodup ∧
    (∀ b ∈ batches, ∀ i ∈ b,
      i.id ∈ (batches.foldl merge_job_items c0).map StacItem.id) ∧
    ∀ c b, merge_job_items (merge_job_items c b) b = merge_job_items c b := by
  exact ⟨nodup_ids_foldl batches c0 h0 hb,
    fun b hbmem i hi => mem_ids_foldl_batch batches c0 b hbmem i hi,
    merge_job_items_idem⟩

/-- The single catalog item of the C1 witness scenario. -/
def itemWitness : StacItem := { id := "it-1", lo := 0, hi := 10 }

/-- Witness for claim C1: replaying the one-item batch of a job a second
time (the crash-resume scenario) leaves a duplicate-free catalog. -/
theorem catalog_merge_idempotent_witness :
    ((([[itemWitness], [itemWitness]]).foldl merge_job_items []).map StacItem.id).Nodup ∧
    (∀ b ∈ [[itemWitness], [itemWitness]], ∀ i ∈ b,
      i.id ∈ (([[itemWitness], [itemWitness]]).foldl merge_job_items []).map StacItem.id) ∧
    ∀ c b, merge_job_items (merge_job_items c b) b = merge_job_items c b :=
  catalog_merge_idempotent [] [[itemWitness], [itemWitness]] (by decide) (by decide)

end GFMap

namespace GFMap

/-- A declared spatio-temporal extent, abstracted to one interval. -/
structure Extent where
  lo : Int
  hi : Int
  deriving DecidableEq, Repr

/-- The extent `pystac.Collection.update_extent_from_items` computes: the
union (convex hull) of the extents of the collection's items, `none` for an
empty collection. -/
def extent_from_items : List StacItem → Option Extent
  | [] => none
  | i :: rest =>
    match extent_from_items rest with
    | none => some { lo := i.lo, hi := i.hi }
    | some e => some { lo := min i.lo e.lo, hi := max i.hi e.hi }

/-- The state of `self._root_collection` relevant to the extent invariant:
its declared extent (the `extent` passed to `pystac.Collection`, `none` for a
fresh collection created with `extent=None`) and its item list. -/
structure StacCollection where
  extent : Option Extent
  items : List StacItem
  deriving DecidableEq, Repr

/-- The collection mutation performed inside `on_job_done`'s lock: items are
merged (with duplicate suppression); the declared extent is not touched. -/
def on_job_done_catalog (c : StacCollection) (job_items : List StacItem) :
    StacCollection :=
  { c with items := merge_job_items c.items job_items }

/-- `_persist_stac` pickles the in-memory collection verbatim: the
checkpointed content is the collection as it stands, extent included. -/
def persist_stac (c : StacCollection) : StacCollection := c

/-- The extent-relevant part of `_write_stac`: it calls
`self._root_collection.update_extent_from_items()` before saving the final
JSON collection (href normalization and the save itself do not change the
collection's extent or items). -/
def write_stac (c : StacCollection) : StacCollection :=
  { c with extent := extent_from_items c.items }

/-- A fresh collection as `_normalize_stac` creates it: `extent=None`, no
items. -/
def freshCollection : StacCollection := { extent := none, items := [] }

/-- The item merged in the C9 counterexample. -/
def itemC9 : StacItem := { id := "it-9", lo := 0, hi := 10 }

/-- Counterexample to claim C9: after merging one item into a fresh
collection and checkpointing it (`on_job_done` followed by `_persist_stac`),
the persisted collection's declared extent is still `none`, not the union of
its items' extents. -/
theorem catalog_extent_cex :
    (persist_stac (on_job_done_catalog freshCollection [itemC9])).extent ≠
      extent_from_items
        (persist_stac (on_job_done_catalog freshCollection [itemC9])).items := by
  decide

/-- Claim C9, amended: the declared extent equals the union of the items'
extents in the final written form only: `_write_stac` recomputes it from the
items (leaving the items unchanged), while the merge step of `on_job_done`
and the `_persist_stac` checkpoint leave the declared extent unchanged, so
between merges it may be stale. -/
theorem catalog_extent_final_write (c : StacCollection) (b : List StacItem) :
    (write_stac c).extent = extent_from_items (write_stac c).items ∧
    (write_stac c).items = c.items ∧
    (on_job_done_catalog c b).extent = c.extent ∧
    (persist_stac c).extent = c.extent :=
  ⟨rfl, rfl, rfl, rfl⟩

end GFMap

namespace GFMap

/-- Per-row effect of `_restart_failed_jobs`: a row selected by
`df.status.isin(["error", "start_failed"])` has its status column set to
`not_started`; every other row is untouched. -/
def restart_one (r : JobRow) : JobRow :=
  if ["error", "start_failed"].contains r.status then { r with status := "not_started" }
  else r

/-- `_restart_failed_jobs`: every row whose status is `error` or
`start_failed` is set back to `not_started`; only the status column is
written. -/
def restart_failed_jobs (df : List JobRow) : List JobRow :=
  df.map restart_one

/-- The filter `df.status.isin(["created", "queued", "running"])` selecting
the rows `_update_statuses` polls. -/
def isActive (r : JobRow) : Bool :=
  ["created", "queued", "running"].contains r.status

/-- The body of the `for idx, row in active.iterrows()` loop of
`_update_statuses`, given the metadata `describe_job()` returned for the row:
`job_status` starts as the backend status; a backend `finished` moves the row
to `postprocessing` (queueing `on_job_done`) and records `costs`/`memory`
when costs are present; a backend `error` moves it to `postprocessing-error`
(queueing `on_job_error`); `costs` is also recorded unconditionally when
present; finally the status column is written.  The queued futures and their
callbacks run asynchronously and are not part of this cycle's dataframe
update. -/
def update_active_row (row : JobRow) (meta : JobMeta) : JobRow :=
  let job_status := meta.status
  let (job_status, row) :=
    if isActive row && meta.status == "finished" then
      ("postprocessing",
        if meta.costs.isSome then { row with costs := meta.costs, memory := meta.memory }
        else row)
    else (job_status, row)
  let job_status :=
    if row.status != "error" && meta.status == "error" then "postprocessing-error"
    else job_status
  let row := if meta.costs.isSome then { row with costs := meta.costs } else row
  { row with status := job_status }

/-- The polling loop of `_update_statuses` over the active rows, in dataframe
order.  `describe_job` is the backend query; an `Except.error` models the
exception `job.describe_job()` raises.  Because the dataframe is mutated in
place, rows processed before a raising query keep their updates, while the
raising row and all later rows are left unchanged and the exception
propagates (second component). -/
def update_active_rows (describe_job : String → Except String JobMeta) :
    List JobRow → List JobRow × Option String
  | [] => ([], none)
  | row :: rest =>
    if isActive row then
      match describe_job row.id with
      | .error e => (row :: rest, some e)
      | .ok meta =>
        let out := update_active_rows describe_job rest
        (update_active_row row meta :: out.1, out.2)
    else
      let out := update_active_rows describe_job rest
      (row :: out.1, out.2)

/-- One polling cycle (`_update_statuses`): when `self._to_restart_failed`
is set (first cycle with `restart_failed=True`), failed rows are reset first;
then the active rows are polled.  `_resume_postjob_actions` only submits
futures and writes no status synchronously, so it does not appear in the
dataframe update. -/
def update_statuses (to_restart_failed : Bool)
    (describe_job : String → Except String JobMeta) (df : List JobRow) :
    List JobRow × Option String :=
  let df := if to_restart_failed then restart_failed_jobs df else df
  update_active_rows describe_job df

/-- What the polling loop does to one row it reaches: active rows whose query
succeeds are updated by `update_active_row`; a failing query or an inactive
row leaves the row unchanged. -/
def step_row (describe_job : String → Except String JobMeta) (r : JobRow) : JobRow :=
  if isActive r then
    match describe_job r.id with
    | .ok meta => update_active_row r meta
    | .error _ => r
  else r

theorem step_row_inactive (describe_job : String → Except String JobMeta)
    (r : JobRow) (h : isActive r = false) : step_row describe_job r = r := by
  simp [step_row, h]

/-- Every row of the output of the polling loop is the input row either left
unchanged or stepped by `step_row`. -/
theorem update_active_rows_forall2 (describe_job : String → Except String JobMeta) :
    ∀ df : List JobRow,
      List.Forall₂ (fun r r2 => r2 = r ∨ r2 = step_row describe_job r) df
        (update_active_rows describe_job df).1 := by
  intro df
  induction df with
  | nil => exact List.Forall₂.nil
  | cons row rest ih =>
    by_cases h : isActive row
    · cases hd : describe_job row.id with
      | error e =>
        simp only [update_active_rows, h, if_true, hd]
        exact List.Forall₂.cons (Or.inl rfl)
          (List.forall₂_same.mpr fun x _ => Or.inl rfl)
      | ok meta =>
        simp only [update_active_rows, h, if_true, hd]
        exact List.Forall₂.cons (Or.inr (by simp [step_row, h, hd])) ih
    · simp only [update_active_rows, h, if_false]
      exact List.Forall₂.cons (Or.inl rfl) ih

theorem forall2_get {α β : Type} {R : α → β → Prop} :
    ∀ {l1 : List α} {l2 : List β}, List.Forall₂ R l1 l2 →
      ∀ (i : Nat) (h1 : i < l1.length) (h2 : i < l2.length),
        R (l1.get ⟨i, h1⟩) (l2.get ⟨i, h2⟩) := by
  intro l1 l2 h
  induction h with
  | nil => intro i h1; exact absurd h1 (Nat.not_lt_zero i)
  | cons hr _ ih =>
    intro i h1 h2
    cases i with
    | zero => exact hr
    | succ j => exact ih j (Nat.lt_of_succ_lt_succ h1) (Nat.lt_of_succ_lt_succ h2)

theorem update_active_rows_length (describe_job : String → Except String JobMeta)
    (df : List JobRow) :
    (update_active_rows describe_job df).1.length = df.length :=
  ((update_active_rows_forall2 describe_job df).length_eq).symm

end GFMap

namespace GFMap

/-- Claim C2: a row whose status is `finished` or `error` is not changed by a
polling cycle in which no restart of failed jobs is in effect
(`to_restart_failed = false`): such rows are not in the `active` selection,
so `_update_statuses` never writes them. -/
theorem status_monotonic_terminal
    (describe_job : String → Except String JobMeta) (df : List JobRow)
    (i : Nat) (hi : i < df.length)
    (hterm : (df.get ⟨i, hi⟩).status = "finished" ∨ (df.get ⟨i, hi⟩).status = "error") :
    ∃ hj : i < (update_statuses false describe_job df).1.length,
      ((update_statuses false describe_job df).1.get ⟨i, hj⟩).status =
        (df.get ⟨i, hi⟩).status := by
  have hlen : (update_statuses false describe_job df).1.length = df.length :=
    update_active_rows_length describe_job df
  have h2 := forall2_get (update_active_rows_forall2 describe_job df) i hi (hlen ▸ hi)
  have hina : isActive (df.get ⟨i, hi⟩) = false := by
    rw [List.get_eq_getElem] at hterm
    rcases hterm with h | h <;> simp [isActive, h]
  have hrow : (update_active_rows describe_job df).1.get ⟨i, hlen ▸ hi⟩ =
      df.get ⟨i, hi⟩ := by
    rcases h2 with h | h
    · exact h
    · rw [step_row_inactive _ _ hina] at h
      exact h
  exact ⟨hlen ▸ hi, congrArg JobRow.status hrow⟩

/-- A backend on which every `describe_job` query raises. -/
def describeDown : String → Except String JobMeta := fun _ => .error "backend down"

/-- Witness for claim C2: a cycle over a one-row table in status `finished`,
on a backend whose queries all raise, leaves the status `finished`. -/
theorem status_monotonic_terminal_witness :
    ∃ hj : 0 < (update_statuses false describeDown [rowFinishedExample]).1.length,
      ((update_statuses false describeDown [rowFinishedExample]).1.get ⟨0, hj⟩).status =
        "finished" :=
  status_monotonic_terminal describeDown [rowFinishedExample] 0 (by decide) (Or.inl rfl)

theorem update_active_rows_abort (describe_job : String → Except String JobMeta) :
    ∀ (xs : List JobRow) (y : JobRow) (zs : List JobRow) (e : String),
      (∀ x ∈ xs, isActive x = true → ∃ m, describe_job x.id = .ok m) →
      isActive y = true → describe_job y.id = .error e →
      update_active_rows describe_job (xs ++ y :: zs) =
        (xs.map (step_row describe_job) ++ y :: zs, some e) := by
  intro xs
  induction xs with
  | nil =>
    intro y zs e _ hy he
    simp [update_active_rows, hy, he]
  | cons x xs ih =>
    intro y zs e hxs hy he
    have hrec := ih y zs e (fun x2 hx2 => hxs x2 (List.mem_cons_of_mem x hx2)) hy he
    by_cases hact : isActive x
    · obtain ⟨m, hm⟩ := hxs x (List.mem_cons_self x xs) hact
      have hstep : step_row describe_job x = update_active_row x m := by
        simp [step_row, hact, hm]
      simp [update_active_rows, hact, hm, hrec, hstep]
    · have hstep : step_row describe_job x = x :=
        step_row_inactive describe_job x (by simpa using hact)
      simp [update_active_rows, hact, hrec, hstep]

/-- Claim C3, amended: a `describe_job` failure for one row propagates out of
`_update_statuses`, aborting the polling cycle: rows polled before the
failure keep their updates, while the failing row and every row after it are
left unchanged, and the exception is re-raised to the caller. -/
theorem polling_failure_aborts_cycle
    (describe_job : String → Except String JobMeta)
    (xs : List JobRow) (y : JobRow) (zs : List JobRow) (e : String)
    (hxs : ∀ x ∈ xs, isActive x = true → ∃ m, describe_job x.id = .ok m)
    (hy : isActive y = true) (he : describe_job y.id = .error e) :
    update_statuses false describe_job (xs ++ y :: zs) =
      (xs.map (step_row describe_job) ++ y :: zs, some e) :=
  update_active_rows_abort describe_job xs y zs e hxs hy he

/-- Row whose `describe_job` query raises in the C3 scenario. -/
def rowPollA : JobRow :=
  { id := "j-a", status := "running", costs := none, memory := none, other := 0 }

/-- Row polled alongside `rowPollA`, reported `finished` by the backend. -/
def rowPollB : JobRow :=
  { id := "j-b", status := "running", costs := none, memory := none, other := 1 }

/-- A third running row, polled after the failing one. -/
def rowPollC : JobRow :=
  { id := "j-c", status := "running", costs := none, memory := none, other := 2 }

/-- A backend whose `describe_job` raises for job `j-a` and reports
`finished` (without costs) for every other job. -/
def describeFailA : String → Except String JobMeta := fun job_id =>
  if job_id == "j-a" then .error "backend down"
  else .ok { status := "finished", costs := none, memory := none }

/-- Counterexample to claim C3: polling `[rowPollA, rowPollB]` where the
query for `rowPollA` raises leaves `rowPollB` unchanged (still `running`) and
aborts the cycle with the exception, even though a successful poll would have
moved `rowPollB` to `postprocessing`. -/
theorem polling_isolation_cex :
    update_statuses false describeFailA [rowPollA, rowPollB] =
      ([rowPollA, rowPollB], some "backend down") ∧
    (update_active_row rowPollB
      { status := "finished", costs := none, memory := none }).status =
      "postprocessing" := by
  exact ⟨by decide, rfl⟩

/-- Witness for the amended claim C3: with the failing row in the middle,
the row polled before it keeps its update and the row after it stays
untouched. -/
theorem polling_failure_aborts_cycle_witness :
    update_statuses false describeFailA ([rowPollB] ++ rowPollA :: [rowPollC]) =
      ([rowPollB].map (step_row describeFailA) ++ rowPollA :: [rowPollC],
        some "backend down") :=
  polling_failure_aborts_cycle describeFailA [rowPollB] rowPollA [rowPollC]
    "backend down"
    (by
      intro x hx hact
      rw [List.mem_singleton] at hx
      subst hx
      exact ⟨{ status := "finished", costs := none, memory := none }, rfl⟩)
    (by decide) rfl

end GFMap

namespace GFMap

/-- Row in status `created` whose status the first polling pass changes even
though it is neither `error` nor `start_failed`. -/
def rowCreatedExample : JobRow :=
  { id := "j-c2", status := "created", costs := none, memory := none, other := 0 }

/-- A backend reporting `queued` (and no costs) for every job. -/
def describeQueued : String → Except String JobMeta :=
  fun _ => .ok { status := "queued", costs := none, memory := none }

/-- Counterexample to claim C7: with `restart_failed=True`, a row in status
`created` — a status other than `error`/`start_failed` — does not keep its
status through the first polling pass: the active-row polling of the same
pass rewrites it to the backend-reported `queued`. -/
theorem restart_frame_cex :
    (update_statuses true describeQueued [rowCreatedExample]).1.map JobRow.status =
      ["queued"] ∧
    rowCreatedExample.status = "created" ∧
    ¬("created" = "error" ∨ "created" = "start_failed") :=
  ⟨by decide, rfl, by decide⟩

theorem restart_one_failed (r : JobRow)
    (h : r.status = "error" ∨ r.status = "start_failed") :
    restart_one r = { r with status := "not_started" } := by
  rcases h with h | h <;> simp [restart_one, List.contains, h]

theorem restart_one_other (r : JobRow)
    (h1 : r.status ≠ "error") (h2 : r.status ≠ "start_failed") :
    restart_one r = r := by
  simp [restart_one, List.contains, h1, h2]

theorem isActive_false_of_ne (r : JobRow)
    (h3 : r.status ≠ "created") (h4 : r.status ≠ "queued")
    (h5 : r.status ≠ "running") : isActive r = false := by
  simp [isActive, List.contains, h3, h4, h5]

/-- Claim C7, amended: with `restart_failed=True`, during the first polling
pass every row in status `error` or `start_failed` becomes exactly the same
row with status `not_started` (no other column modified), and every row in a
status other than `error`, `start_failed`, `created`, `queued`, `running`
comes out of the pass entirely unchanged; rows in the active statuses
`created`/`queued`/`running` may still be updated by the regular polling
logic of the same pass. -/
theorem restart_failed_roundtrip
    (describe_job : String → Except String JobMeta) (df : List JobRow)
    (i : Nat) (hi : i < df.length) :
    ∃ hj : i < (update_statuses true describe_job df).1.length,
      (((df.get ⟨i, hi⟩).status = "error" ∨ (df.get ⟨i, hi⟩).status = "start_failed") →
        (update_statuses true describe_job df).1.get ⟨i, hj⟩ =
          { df.get ⟨i, hi⟩ with status := "not_started" }) ∧
      ((df.get ⟨i, hi⟩).status ≠ "error" → (df.get ⟨i, hi⟩).status ≠ "start_failed" →
        (df.get ⟨i, hi⟩).status ≠ "created" → (df.get ⟨i, hi⟩).status ≠ "queued" →
        (df.get ⟨i, hi⟩).status ≠ "running" →
        (update_statuses true describe_job df).1.get ⟨i, hj⟩ = df.get ⟨i, hi⟩) := by
  have hlen2 : (restart_failed_jobs df).length = df.length := by
    simp [restart_failed_jobs]
  have hlen : (update_statuses true describe_job df).1.length = df.length :=
    (update_active_rows_length describe_job (restart_failed_jobs df)).trans hlen2
  have hB : (restart_failed_jobs df).get ⟨i, hlen2 ▸ hi⟩ =
      restart_one (df.get ⟨i, hi⟩) := by
    simp [restart_failed_jobs, List.get_eq_getElem]
  have hA := forall2_get
    (update_active_rows_forall2 describe_job (restart_failed_jobs df))
    i (hlen2 ▸ hi) (hlen ▸ hi)
  rw [hB] at hA
  refine ⟨hlen ▸ hi, ?_, ?_⟩
  · intro hfail
    rw [restart_one_failed _ hfail] at hA
    have hina : isActive ({ df.get ⟨i, hi⟩ with status := "not_started" }) = false := by
      simp [isActive, List.contains]
    rcases hA with h | h
    · exact h
    · rw [step_row_inactive _ _ hina] at h
      exact h
  · intro h1 h2 h3 h4 h5
    rw [restart_one_other _ h1 h2] at hA
    rcases hA with h | h
    · exact h
    · rw [step_row_inactive _ _ (isActive_false_of_ne _ h3 h4 h5)] at h
      exact h

/-- The failed row of the C7 witness. -/
def rowErrExample : JobRow :=
  { id := "j-e", status := "error", costs := none, memory := none, other := 7 }

/-- Witness for the amended claim C7 on a one-row table in status `error`. -/
theorem restart_failed_roundtrip_witness :
    ∃ hj : 0 < (update_statuses true describeDown [rowErrExample]).1.length,
      ((rowErrExample.status = "error" ∨ rowErrExample.status = "start_failed") →
        (update_statuses true describeDown [rowErrExample]).1.get ⟨0, hj⟩ =
          { rowErrExample with status := "not_started" }) ∧
      (rowErrExample.status ≠ "error" → rowErrExample.status ≠ "start_failed" →
        rowErrExample.status ≠ "created" → rowErrExample.status ≠ "queued" →
        rowErrExample.status ≠ "running" →
        (update_statuses true describeDown [rowErrExample]).1.get ⟨0, hj⟩ =
          rowErrExample) :=
  restart_failed_roundtrip describeDown [rowErrExample] 0 (by decide)

end GFMap

namespace GFMap

/-- One entry of `job.logs()`. -/
structure LogEntry where
  level : String
  message : String
  deriving DecidableEq, Repr

/-- Content of the file `on_job_error` writes under `failed_jobs/`: either
the `json.dumps` of the error-level log entries, or the placeholder text
`Couldn't find any error logs. Please check the error manually on job ID:
<job_id>.` naming the remote job id. -/
inductive ErrorLogFile where
  | entries (error_logs : List LogEntry)
  | placeholder (job_id : String)
  deriving DecidableEq, Repr

/-- The `title` and `id` fields `on_job_error` reads from `describe_job()`. -/
structure JobErrMeta where
  title : String
  id : String
  deriving DecidableEq, Repr

/-- Embedding of `GFMAPJobManager.on_job_error` (undecorated body).
`logs_result` is the outcome of `job.logs()` — its failure is caught and
replaced by `[]` — and `describe_result` the outcome of the unprotected
`job.describe_job()` call, whose failure propagates.  The result names the
log file path and its content; writing the file is assumed not to fail. -/
def on_job_error (logs_result : Except String (List LogEntry))
    (describe_result : Except String JobErrMeta) (job_id : String) :
    Except String (String × ErrorLogFile) :=
  let logs := match logs_result with
    | .ok l => l
    | .error _ => []
  let error_logs := logs.filter (fun entry => entry.level.toLower == "error")
  match describe_result with
  | .error e => .error e
  | .ok meta =>
    let path := "failed_jobs/" ++ meta.title ++ "_" ++ meta.id ++ ".log"
    if error_logs.length > 0 then .ok (path, .entries error_logs)
    else .ok (path, .placeholder job_id)

/-- `on_job_error` as decorated in the source:
`@retry_on_exception(max_retries=2, delay_s=180)`. -/
def on_job_error_wrapped (logs_result : Except String (List LogEntry))
    (describe_result : Except String JobErrMeta) (job_id : String) :
    Except (Option String) (String × ErrorLogFile) × Nat :=
  retry_on_exception 2 (fun _ => on_job_error logs_result describe_result job_id)

/-- Counterexample to claim C5: `on_job_error` is not exception-free — when
`describe_job` raises, the exception propagates out of the body, and after
the decorator's two attempts it is re-raised to the caller. -/
theorem on_job_error_raises_cex :
    on_job_error (.ok []) (.error "connection lost") "j-5" =
      .error "connection lost" ∧
    on_job_error_wrapped (.ok []) (.error "connection lost") "j-5" =
      (.error (some "connection lost"), 2) :=
  ⟨rfl, rfl⟩

/-- Claim C5, amended: `on_job_error` swallows log-retrieval failures —
writing the placeholder file that names the remote job id — and never raises
on that account; but it can still raise: a failure of the subsequent
`describe_job` call propagates to its caller (and past the retry
decorator once its budget is exhausted). -/
theorem on_job_error_swallows_log_failure
    (log_err : String) (describe_result : Except String JobErrMeta)
    (meta : JobErrMeta) (job_id : String)
    (hok : describe_result = .ok meta) :
    on_job_error (.error log_err) describe_result job_id =
      .ok ("failed_jobs/" ++ meta.title ++ "_" ++ meta.id ++ ".log",
        .placeholder job_id) ∧
    ∀ e : String, on_job_error (.ok []) (.error e) job_id = .error e := by
  subst hok
  exact ⟨rfl, fun e => rfl⟩

/-- Witness for the amended claim C5: failed log retrieval, successful
`describe_job`. -/
theorem on_job_error_swallows_log_failure_witness :
    on_job_error (.error "log service down") (.ok { title := "t", id := "j-5" })
        "j-5" =
      .ok ("failed_jobs/" ++ "t" ++ "_" ++ "j-5" ++ ".log", .placeholder "j-5") ∧
    ∀ e : String, on_job_error (.ok []) (.error e) "j-5" = .error e :=
  on_job_error_swallows_log_failure "log service down" _
    { title := "t", id := "j-5" } "j-5" rfl

end GFMap

namespace GFMap

/-- One item of the result-metadata collection parsed in `on_job_done`:
its id and the titles of its assets (in dictionary order; the first title is
the correlation key `asset_name`). -/
structure ResultItem where
  id : String
  asset_titles : List String
  deriving DecidableEq, Repr

/-- The body of the metadata loop in `on_job_done` for one item, against the
`job_products` mapping `f"{job.job_id}_{asset.name}" -> output_path` built by
the download loop.  The whole body is wrapped in `try/except` that logs and
continues, so any failure — an item with no assets (`IndexError`), a key
absent from `job_products` (`KeyError`), more than one asset
(`AssertionError`) — skips the item; a correlated single-asset item is kept,
its asset href rewritten to the downloaded path. -/
def match_item (job_id : String) (job_products : List (String × String))
    (item : ResultItem) : Option (String × String) :=
  match item.asset_titles with
  | [] => none
  | asset_name :: rest =>
    match job_products.lookup (job_id ++ "_" ++ asset_name) with
    | none => none
    | some asset_path => if rest.isEmpty then some (item.id, asset_path) else none

/-- The metadata loop of `on_job_done`: the `job_items` list it accumulates,
as pairs of item id and rewritten asset href. -/
def on_job_done_items (job_id : String) (job_products : List (String × String))
    (items : List ResultItem) : List (String × String) :=
  items.filterMap (match_item job_id job_products)

/-- An item whose asset title has no counterpart among the downloaded
products. -/
def itemUnmatched : ResultItem := { id := "item-1", asset_titles := ["B01"] }

/-- An item correlated to the downloaded product `j-1_B02`. -/
def itemMatched : ResultItem := { id := "item-2", asset_titles := ["B02"] }

/-- Counterexample to claim C4: an item that cannot be correlated to a
downloaded asset is silently dropped, not raised on: the loop returns
normally (its body catches every exception), the unmatched item is simply
missing from `job_items`, and later items are still processed. -/
theorem item_matching_skips_cex :
    on_job_done_items "j-1" [("j-1_B02", "out/p2.nc")] [itemUnmatched, itemMatched] =
      [("item-2", "out/p2.nc")] :=
  rfl

/-- Claim C4, amended: in `on_job_done`, a downloaded-result metadata item
that cannot be correlated to a downloaded asset by the
`(job_id, asset_name)` key established during download is logged and skipped
— dropped from the item list with the remaining items unaffected — rather
than raising an error. -/
theorem item_matching_skip (job_id : String) (job_products : List (String × String))
    (pre post : List ResultItem) (item : ResultItem)
    (asset_name : String) (rest : List String)
    (htitle : item.asset_titles = asset_name :: rest)
    (hmiss : job_products.lookup (job_id ++ "_" ++ asset_name) = none) :
    on_job_done_items job_id job_products (pre ++ item :: post) =
      on_job_done_items job_id job_products (pre ++ post) := by
  have hnone : match_item job_id job_products item = none := by
    simp [match_item, htitle, hmiss]
  simp [on_job_done_items, List.filterMap_append, List.filterMap_cons, hnone]

/-- Witness for the amended claim C4 at the concrete counterexample input. -/
theorem item_matching_skip_witness :
    on_job_done_items "j-1" [("j-1_B02", "out/p2.nc")]
        ([] ++ itemUnmatched :: [itemMatched]) =
      on_job_done_items "j-1" [("j-1_B02", "out/p2.nc")] ([] ++ [itemMatched]) :=
  item_matching_skip "j-1" [("j-1_B02", "out/p2.nc")] [] [itemMatched]
    itemUnmatched "B01" [] rfl rfl

end GFMap
